import Mathlib

/-!
Shallow embedding of `pihole-influxdb.py` (avojak/pihole-influxdb-monitor).

Python dictionaries coming from JSON responses are modelled as structures
whose key lookups may fail: a field of type `Option α` is `none` when the
key is missing (so that `dict.pop(key)` / `dict[key]` can raise `KeyError`,
modelled by the `Except PyErr` monad).  A top-level statistics category is
`Option D` where `none` covers both `None` and an empty (falsy) dict, the
two cases skipped by the `if category:` guards in `_write_to_influxdb`.
Network effects (HTTP fetches, the InfluxDB write) are abstracted as
explicit inputs/outputs of the functions that use them.
-/

/-- Python exceptions that can escape the modelled code paths. -/
inductive PyErr where
  | keyError (key : String)
  | attributeError (msg : String)
deriving DecidableEq

/-- Scalar values stored in point fields (floats only appear as opaque
rendered text in this model; no claim inspects float arithmetic). -/
inductive PyVal where
  | nat (n : Nat)
  | int (i : Int)
  | str (s : String)
deriving DecidableEq

/-- A JSON sub-object of scalar statistics: key/value pairs in order. -/
abbrev Fields : Type := List (String × PyVal)

/-- One InfluxDB data point, as assembled by `PiholeInfluxDB._create_point`
via `Point.from_dict` with `WritePrecision.S` (modelled by `precision = "s"`). -/
structure Point where
  measurement : String
  tags : List (String × Option String)
  fields : Fields
  time : Int
  fieldTypes : List (String × String)
  precision : String
deriving DecidableEq

/-- Translation of `PiholeInfluxDB._create_point`. -/
def create_point (measurement : String) (tags : List (String × Option String))
    (fields : Fields) (time : Int) (fieldTypes : List (String × String)) : Point :=
  { measurement := measurement, tags := tags, fields := fields, time := time,
    fieldTypes := fieldTypes, precision := "s" }

/-- One monitored Pi-hole instance (class `Pihole`).  `aliasName` is the
source's `alias` field (`alias` is a keyword in Lean). -/
structure Pihole where
  aliasName : Option String
  address : Option String
  requestTimeout : Rat
  password : Option String
  sid : Option String
deriving DecidableEq

/-- Model of Python's `urlparse(address).hostname`: the lowercased host
part of the network location, without port, `None` when the URL has no
`scheme://netloc` part. -/
def urlparseHostname (url : String) : Option String :=
  match url.splitOn "://" with
  | [_, rest] =>
    let netloc := (rest.splitOn "/").headD ""
    let afterUser := ((netloc.splitOn "@").getLastD netloc)
    let host := (afterUser.splitOn ":").headD ""
    if host.isEmpty then none else some host.toLower
  | _ => none

/-- Hostname tag value for a Pi-hole: `urlparse(pihole.address).hostname`. -/
def piholeHostname (p : Pihole) : Option String :=
  p.address.bind urlparseHostname

/-- Tags placed on every point for a Pi-hole (lines 295-298). -/
def piholeTags (p : Pihole) : List (String × Option String) :=
  [("alias", p.aliasName), ("hostname", piholeHostname p)]

/-- Lookup that models `dict.pop(key)` / `dict[key]`: raises `KeyError`
when the key is missing. -/
def popKey {α : Type} (o : Option α) (key : String) : Except PyErr α :=
  match o with
  | some v => Except.ok v
  | none => Except.error (PyErr.keyError key)

/-- The `queries` sub-dict of the summary: the three popped sub-groups plus
the remaining scalar entries (lines 311-332). -/
structure QueriesDict where
  replies : Option Fields
  status : Option Fields
  types : Option Fields
  rest : Fields
deriving DecidableEq

/-- The summary statistics dict (`/stats/summary` response). -/
structure SummaryDict where
  gravity : Option Fields
  clients : Option Fields
  queries : Option QueriesDict
deriving DecidableEq

/-- One entry of the top-clients list. -/
structure ClientEntry where
  ip : String
  name : String
  count : Nat
deriving DecidableEq

/-- The top-clients dict (`/stats/top_clients` response). -/
structure TopClientsDict where
  clients : Option (List ClientEntry)
deriving DecidableEq

/-- One entry of a top-domains list. -/
structure DomainEntry where
  domain : String
  count : Nat
deriving DecidableEq

/-- A top-domains dict (`/stats/top_domains` response). -/
structure TopDomainsDict where
  domains : Option (List DomainEntry)
deriving DecidableEq

/-- The nested `statistics` object of an upstream entry; `response` and
`variance` are kept as the rendered text of the float statistics. -/
structure UpstreamStats where
  response : String
  variance : String
deriving DecidableEq

/-- One entry of the upstreams list. -/
structure UpstreamEntry where
  ip : String
  name : String
  port : Nat
  count : Nat
  statistics : UpstreamStats
deriving DecidableEq

/-- The upstreams dict (`/stats/upstreams` response). -/
structure UpstreamsDict where
  upstreams : Option (List UpstreamEntry)
deriving DecidableEq

/-- One time bucket of the history list; `timestamp` is `Option` because
`datapoint.pop("timestamp")` raises when the key is missing. -/
structure HistoryEntry where
  timestamp : Option Int
  rest : Fields
deriving DecidableEq

/-- The history dict (`/history` response). -/
structure HistoryDict where
  history : Option (List HistoryEntry)
deriving DecidableEq

/-- The blocking-status dict (`/dns/blocking` response): `blocking` and
`timer` are `Option` at the outer level for key presence; the inner
`Option Int` of `timer` is JSON `null`. -/
structure BlockingDict where
  blocking : Option String
  timer : Option (Option Int)
deriving DecidableEq

/-- Field-type annotation `{x: "uint" for x in fields}`. -/
def uintTypes (fs : Fields) : List (String × String) :=
  fs.map (fun kv => (kv.1, "uint"))

/-- Field-type annotation for the remaining query data (lines 330-332). -/
def queriesRestTypes (fs : Fields) : List (String × String) :=
  fs.map (fun kv =>
    (kv.1, if kv.1 = "percent_blocked" ∨ kv.1 = "frequency" then "float" else "uint"))

/-- Python `str.join`: `strJoin sep [a, b, c] = a ++ sep ++ b ++ sep ++ c`. -/
def strJoin (sep : String) : List String → String
  | [] => ""
  | [s] => s
  | s :: rest => s ++ sep ++ strJoin sep rest

/-- Per-entry piece `f-string ip|name|count` for a top client (line 336). -/
def clientEntryStr (x : ClientEntry) : String :=
  x.ip ++ "|" ++ x.name ++ "|" ++ toString x.count

/-- Per-entry piece `f-string domain|count` for a top domain (lines 341, 347). -/
def domainEntryStr (x : DomainEntry) : String :=
  x.domain ++ "|" ++ toString x.count

/-- Per-entry piece for an upstream (line 352). -/
def upstreamEntryStr (x : UpstreamEntry) : String :=
  x.ip ++ "|" ++ x.name ++ "|" ++ toString x.port ++ "|" ++ toString x.count ++
    "|" ++ x.statistics.response ++ "|" ++ x.statistics.variance

/-- Points built from the summary category (lines 301-332). -/
def summaryPoints (tags : List (String × Option String)) (now : Int) :
    Option SummaryDict → Except PyErr (List Point)
  | none => Except.ok []
  | some s => do
    let gravity ← popKey s.gravity "gravity"
    let clients ← popKey s.clients "clients"
    let queries ← popKey s.queries "queries"
    let queryReplies ← popKey queries.replies "replies"
    let queryStatuses ← popKey queries.status "status"
    let queryTypes ← popKey queries.types "types"
    Except.ok
      [ create_point "gravity" tags gravity now (uintTypes gravity),
        create_point "clients" tags clients now (uintTypes clients),
        create_point "query_replies" tags queryReplies now (uintTypes queryReplies),
        create_point "query_statuses" tags queryStatuses now (uintTypes queryStatuses),
        create_point "query_types" tags queryTypes now (uintTypes queryTypes),
        create_point "queries" tags queries.rest now (queriesRestTypes queries.rest) ]

/-- Points built from the top-clients category (lines 334-337). -/
def topClientsPoints (tags : List (String × Option String)) (now : Int) :
    Option TopClientsDict → Except PyErr (List Point)
  | none => Except.ok []
  | some t => do
    let clients ← popKey t.clients "clients"
    let data : Fields :=
      [("top_clients", PyVal.str (strJoin "," (clients.map clientEntryStr)))]
    Except.ok [create_point "top_clients" tags data now [("top_clients", "str")]]

/-- Points built from the top-permitted-domains category (lines 339-343). -/
def topPermittedPoints (tags : List (String × Option String)) (now : Int) :
    Option TopDomainsDict → Except PyErr (List Point)
  | none => Except.ok []
  | some t => do
    let domains ← popKey t.domains "domains"
    let data : Fields :=
      [("top_permitted_domains", PyVal.str (strJoin "," (domains.map domainEntryStr)))]
    Except.ok
      [create_point "top_permitted_domains" tags data now [("top_permitted_domains", "str")]]

/-- Points built from the top-blocked-domains category (lines 345-348). -/
def topBlockedPoints (tags : List (String × Option String)) (now : Int) :
    Option TopDomainsDict → Except PyErr (List Point)
  | none => Except.ok []
  | some t => do
    let domains ← popKey t.domains "domains"
    let data : Fields :=
      [("top_blocked_domains", PyVal.str (strJoin "," (domains.map domainEntryStr)))]
    Except.ok
      [create_point "top_blocked_domains" tags data now [("top_blocked_domains", "str")]]

/-- Points built from the upstreams category (lines 350-353). -/
def upstreamPoints (tags : List (String × Option String)) (now : Int) :
    Option UpstreamsDict → Except PyErr (List Point)
  | none => Except.ok []
  | some t => do
    let ups ← popKey t.upstreams "upstreams"
    let data : Fields :=
      [("upstreams", PyVal.str (strJoin "," (ups.map upstreamEntryStr)))]
    Except.ok [create_point "upstreams" tags data now [("upstreams", "str")]]

/-- Points built from the history category (lines 355-359): one point per
time bucket, with the bucket's own timestamp. -/
def historyPoints (tags : List (String × Option String)) :
    Option HistoryDict → Except PyErr (List Point)
  | none => Except.ok []
  | some h => do
    let entries ← popKey h.history "history"
    entries.mapM (fun e => do
      let ts ← popKey e.timestamp "timestamp"
      Except.ok (create_point "history" tags e.rest ts (uintTypes e.rest)))

/-- Points built from the blocking category (lines 361-366): an absent
(`null`) timer is encoded as `-1`. -/
def blockingPoints (tags : List (String × Option String)) (now : Int) :
    Option BlockingDict → Except PyErr (List Point)
  | none => Except.ok []
  | some b => do
    let bl ← popKey b.blocking "blocking"
    let tm ← popKey b.timer "timer"
    let fields : Fields := [("blocking", PyVal.str bl), ("timer", PyVal.int (tm.getD (-1)))]
    Except.ok
      [create_point "blocking" tags fields now [("blocking", "str"), ("timer", "int")]]

/-- Inputs of one polling job: the fetch results (already converted to
absent on per-request failure by `_api_call` / `_api_get`) plus the
behaviour of the external InfluxDB write call. -/
structure JobInput where
  pihole : Pihole
  nowSeconds : Int
  summary : Option SummaryDict
  topClients : Option TopClientsDict
  topPermittedDomains : Option TopDomainsDict
  topBlockedDomains : Option TopDomainsDict
  upstreams : Option UpstreamsDict
  history : Option HistoryDict
  blocking : Option BlockingDict
  writeFails : Bool
deriving DecidableEq

/-- Result of `_write_to_influxdb` when no exception escapes it:
`writeExecuted` records that the batch write call on lines 374-375 was
reached and executed, `writeOk` the boolean the function returns. -/
structure WriteResult where
  points : List Point
  writeExecuted : Bool
  writeOk : Bool
deriving DecidableEq

/-- Translation of `PiholeInfluxDB._write_to_influxdb` (lines 282-379):
builds the points per category in source order, then always executes the
batch write; a store-side exception is caught and turns into `writeOk =
false`.  A `KeyError` from a malformed dict is not caught and escapes as
`Except.error`. -/
def write_to_influxdb (j : JobInput) : Except PyErr WriteResult := do
  let tags := piholeTags j.pihole
  let s ← summaryPoints tags j.nowSeconds j.summary
  let tc ← topClientsPoints tags j.nowSeconds j.topClients
  let tp ← topPermittedPoints tags j.nowSeconds j.topPermittedDomains
  let tb ← topBlockedPoints tags j.nowSeconds j.topBlockedDomains
  let up ← upstreamPoints tags j.nowSeconds j.upstreams
  let hi ← historyPoints tags j.history
  let bl ← blockingPoints tags j.nowSeconds j.blocking
  Except.ok
    { points := s ++ tc ++ tp ++ tb ++ up ++ hi ++ bl,
      writeExecuted := true,
      writeOk := !j.writeFails }

/-- Translation of `PiholeInfluxDB._run_job` (lines 381-400): the fetches
are the already-supplied inputs; the body has no exception handler, so any
error from `_write_to_influxdb` escapes the job. -/
def run_job (j : JobInput) : Except PyErr WriteResult :=
  write_to_influxdb j

/-- One pass of the scheduler over the due jobs (`schedule.run_pending()`
inside `start`, lines 415-417): the `schedule` library runs each job in
turn with no exception handler, so an escaping exception aborts the loop
and the remaining jobs. -/
def run_pending (jobs : List JobInput) : Except PyErr (List WriteResult) :=
  jobs.mapM run_job

/-- Result of `POST /auth`: the `session` object of the response body. -/
structure SessionData where
  valid : Bool
  sid : String
deriving DecidableEq

/-- Translation of `Pihole.authenticate` (lines 116-130).  `callResult` is
what `self._api_call('/auth', ...)` returned: `none` when the request
errored (connection error, timeout, HTTP error status — `_api_call`
returns `None` in those cases).  Calling `.json()` on `None` raises
`AttributeError`, which `authenticate` does not catch. -/
def authenticate (p : Pihole) (callResult : Option SessionData) :
    Except PyErr (Pihole × Bool) :=
  match callResult with
  | none =>
    Except.error (PyErr.attributeError "NoneType object has no attribute json")
  | some session =>
    if !session.valid then
      Except.ok (p, false)
    else
      Except.ok ({ p with sid := some session.sid, password := some "" }, true)

/-- Translation of `PiholeInfluxDB._verify_bucket` (lines 245-268).
`findResult` is the outcome of `buckets_api.find_bucket_by_name` (an
`Except.error` models a raised exception, caught by the handler on line
265); `createResult` is the outcome of `buckets_api.create_bucket`. -/
def verify_bucket (findResult : Except String (Option Unit))
    (createBucket : Bool) (createResult : Except String Unit) : Bool :=
  match findResult with
  | Except.error _ => false
  | Except.ok (some _) => true
  | Except.ok none =>
    if createBucket then
      match createResult with
      | Except.error _ => false
      | Except.ok _ => true
    else
      false

/-- Outcome of `PiholeInfluxDB.start` up to entering the run-forever loop. -/
inductive StartOutcome where
  | exited (code : Nat)
  | running (numJobsRegistered : Nat)
deriving DecidableEq

/-- Translation of the head of `PiholeInfluxDB.start` (lines 402-417): if
`_verify_bucket()` is false the process exits with status 1 before any job
is registered or run; otherwise one job per configured Pi-hole is
registered (and run once immediately). -/
def start (verifyOk : Bool) (numInstances : Nat) : StartOutcome :=
  if !verifyOk then StartOutcome.exited 1 else StartOutcome.running numInstances

/-- Python truthiness of an optional string (`if not password:`):
`None` and the empty string are falsy. -/
def truthy : Option String → Bool
  | none => false
  | some s => !s.isEmpty

/-- Helper for `zipLongest3`: `zip_longest` over the last two lists. -/
def zip2Longest {β γ : Type} : List β → List γ → List (Option β × Option γ)
  | [], cs => cs.map (fun c => (none, some c))
  | b :: bs, cs => (some b, cs.head?) :: zip2Longest bs cs.tail

/-- Python's `itertools.zip_longest` for three lists, padding with `None`. -/
def zipLongest3 {α β γ : Type} :
    List α → List β → List γ → List (Option α × Option β × Option γ)
  | [], bs, cs => (zip2Longest bs cs).map (fun t => (none, t.1, t.2))
  | a :: as, bs, cs => (some a, bs.head?, cs.head?) :: zipLongest3 as bs.tail cs.tail

/-- State built by the `Config.__init__` loop over
`zip_longest(aliases, addresses, passwords)` (lines 195-205).
`piholes` models the insertion-ordered dict `self.piholes`, keyed by
address; `dupWarnings` counts the duplicate-address warnings (line 198)
and `pwWarnings` the missing-password warnings (line 201). -/
structure ConfigState where
  piholes : List (Option String × Pihole)
  dupWarnings : Nat
  pwWarnings : Nat
deriving DecidableEq

/-- Membership test `address in self.piholes` on the modelled dict. -/
def hasKey (l : List (Option String × Pihole)) (k : Option String) : Bool :=
  l.any (fun kv => kv.1 == k)

/-- Outcome of the login POST issued by `pihole.authenticate()` during
`Config.__init__` (line 204), i.e. what `_api_call('/auth', ...)`
returns.  For a real address the network behaviour is the external
parameter `auth`; for the `zip_longest`-padded `None` address the URL is
the schemeless text `None/api/auth`, so `requests` raises
`MissingSchema` (a `RequestException`, caught on line 103) and
`_api_call` deterministically returns `None` — no network involved. -/
def authCallResult (auth : String → Option SessionData) :
    Option String → Option SessionData
  | some a => auth a
  | none => none

/-- One iteration of the `Config.__init__` loop body (lines 196-205):
a duplicate address is skipped with a warning (197-199); a falsy password
logs a warning (200-201); the instance is constructed (202); a truthy
password triggers `pihole.authenticate()` (203-204), whose
`AttributeError` — raised whenever the login call errors and `_api_call`
returns `None` — escapes the constructor, which has no handler; only
after that is the instance stored in the dict (205). -/
def configStep (timeout : Rat) (auth : String → Option SessionData)
    (st : ConfigState) (t : Option String × Option String × Option String) :
    Except PyErr ConfigState :=
  let al := t.1
  let ad := t.2.1
  let pw := t.2.2
  if hasKey st.piholes ad then
    Except.ok { st with dupWarnings := st.dupWarnings + 1 }
  else
    let st1 := if truthy pw then st else { st with pwWarnings := st.pwWarnings + 1 }
    let ph : Pihole :=
      { aliasName := al, address := ad, requestTimeout := timeout,
        password := pw, sid := none }
    if truthy pw then
      match authenticate ph (authCallResult auth ad) with
      | Except.error e => Except.error e
      | Except.ok (ph2, _) =>
        Except.ok { st1 with piholes := st1.piholes ++ [(ad, ph2)] }
    else
      Except.ok { st1 with piholes := st1.piholes ++ [(ad, ph)] }

/-- The `Config.__init__` instance-construction loop (lines 195-205),
after the count checks on lines 187-192 have passed; an exception raised
by an `authenticate()` call aborts the constructor. -/
def configInit (aliases addresses passwords : List String) (timeout : Rat)
    (auth : String → Option SessionData) : Except PyErr ConfigState :=
  (zipLongest3 aliases addresses passwords).foldlM (configStep timeout auth)
    { piholes := [], dupWarnings := 0, pwWarnings := 0 }

/-- Split a character list at every occurrence of `c` (the semantics of
Python's `str.split(sep)` with a one-character separator: splitting the
empty text yields one empty piece). -/
def splitOnChar (c : Char) : List Char → List (List Char)
  | [] => [[]]
  | x :: xs =>
    let r := splitOnChar c xs
    if x = c then [] :: r else (x :: r.headD []) :: r.tail

/-- Value of a run of decimal digit characters, most significant first. -/
def digitsVal (cs : List Char) : Nat :=
  cs.foldl (fun a c => a * 10 + (c.toNat - 48)) 0

/-- Parse a non-empty all-digit character run as a natural number. -/
def parseCount (cs : List Char) : Option Nat :=
  if cs ≠ [] ∧ cs.all Char.isDigit then some (digitsVal cs) else none

/-- Modelled from the spec: the conceptual re-parse of one comma-separated
chunk of the encoded top-clients string — split on pipes into exactly
`ip|name|count` and read the count back as a number.  (No decoder exists
in the repository; the spec's round-trip property describes this
conceptual inverse.) -/
def decodeClientChunk (chunk : List Char) : Option (String × String × Nat) :=
  match splitOnChar '|' chunk with
  | [ip, name, cnt] => (parseCount cnt).map (fun n => (String.mk ip, String.mk name, n))
  | _ => none

/-- Modelled from the spec: the conceptual re-parse of the encoded
top-clients string field — split on commas, then each entry on pipes,
yielding the list of `(identifier, secondary, count)` tuples. -/
def decodeTopClients (s : String) : Option (List (String × String × Nat)) :=
  (splitOnChar ',' s.data).mapM decodeClientChunk

/-- Reference decimal rendering of a natural number, most significant
digit first (agrees with `Nat.toDigits 10`, proved below). -/
def digitsRec (n : Nat) : List Char :=
  if _h : n < 10 then [Nat.digitChar n]
  else digitsRec (n / 10) ++ [Nat.digitChar (n % 10)]
decreasing_by
  exact Nat.div_lt_self (by omega) (by omega)

/-- Helper: `Nat.toDigitsCore` with enough fuel prepends the decimal
digits of `n` to the accumulator. -/
theorem toDigitsCore_eq (fuel : Nat) :
    ∀ (n acc : _), n < fuel → Nat.toDigitsCore 10 fuel n acc = digitsRec n ++ acc := by
  induction fuel with
  | zero => intro n acc h; omega
  | succ f ih =>
    intro n acc h
    rw [Nat.toDigitsCore]
    by_cases h10 : n / 10 = 0
    · have hn : n < 10 := by omega
      rw [if_pos h10, digitsRec, dif_pos hn, Nat.mod_eq_of_lt hn]
      rfl
    · rw [if_neg h10]
      have hlt : n / 10 < f := by omega
      rw [ih (n / 10) _ hlt]
      conv_rhs => rw [digitsRec, dif_neg (by omega : ¬ n < 10)]
      simp

/-- The decimal rendering `str(n)` used by the f-strings: its characters
are `digitsRec n`. -/
theorem toString_nat_data (n : Nat) : (toString n).data = digitsRec n := by
  show (Nat.repr n).data = digitsRec n
  rw [Nat.repr, Nat.toDigits, List.asString]
  rw [toDigitsCore_eq (n + 1) n [] (Nat.lt_succ_self n), List.append_nil]

/-- A digit character produced by `Nat.digitChar` below base 10. -/
theorem digitChar_isDigit {m : Nat} (h : m < 10) : (Nat.digitChar m).isDigit = true := by
  interval_cases m <;> decide

/-- All characters of a decimal rendering are digits. -/
theorem digitsRec_all_digit (n : Nat) : ∀ c ∈ digitsRec n, c.isDigit = true := by
  induction n using Nat.strong_induction_on with
  | _ n ih =>
    rw [digitsRec]
    by_cases h : n < 10
    · rw [dif_pos h]
      intro c hc
      simp only [List.mem_singleton] at hc
      subst hc
      exact digitChar_isDigit h
    · rw [dif_neg h]
      intro c hc
      rw [List.mem_append] at hc
      cases hc with
      | inl hc => exact ih (n / 10) (by omega) c hc
      | inr hc =>
        simp only [List.mem_singleton] at hc
        subst hc
        exact digitChar_isDigit (Nat.mod_lt _ (by omega))

/-- A decimal rendering is never empty. -/
theorem digitsRec_ne_nil (n : Nat) : digitsRec n ≠ [] := by
  rw [digitsRec]
  by_cases h : n < 10
  · rw [dif_pos h]; simp
  · rw [dif_neg h]; simp

/-- Reading the decimal rendering back gives the number. -/
theorem digitsVal_digitsRec (n : Nat) : digitsVal (digitsRec n) = n := by
  induction n using Nat.strong_induction_on with
  | _ n ih =>
    rw [digitsRec]
    by_cases h : n < 10
    · rw [dif_pos h]
      interval_cases n <;> decide
    · rw [dif_neg h]
      have hsplit : digitsVal (digitsRec (n / 10) ++ [Nat.digitChar (n % 10)]) =
          digitsVal (digitsRec (n / 10)) * 10 + ((Nat.digitChar (n % 10)).toNat - 48) := by
        simp [digitsVal, List.foldl_append]
      rw [hsplit, ih (n / 10) (by omega)]
      have hm : n % 10 < 10 := Nat.mod_lt _ (by omega)
      have hdc : (Nat.digitChar (n % 10)).toNat - 48 = n % 10 := by
        revert hm
        generalize n % 10 = m
        intro hm
        interval_cases m <;> decide
      rw [hdc]
      omega

/-- The character data of the string literal `"|"`. -/
theorem data_pipe : ("|" : String).data = ['|'] := rfl

/-- The character data of the string literal `","`. -/
theorem data_comma : ("," : String).data = [','] := rfl

/-- Rebuilding a string from its character data is the identity. -/
theorem string_mk_data (s : String) : String.mk s.data = s := rfl

/-- Splitting never yields an empty list of pieces. -/
theorem splitOnChar_ne_nil (c : Char) (l : List Char) : splitOnChar c l ≠ [] := by
  cases l with
  | nil => simp [splitOnChar]
  | cons x xs =>
    rw [splitOnChar]
    by_cases hx : x = c <;> simp [hx]

/-- A text without the separator is a single piece. -/
theorem splitOnChar_not_mem (c : Char) (l : List Char) (h : c ∉ l) :
    splitOnChar c l = [l] := by
  induction l with
  | nil => rfl
  | cons x xs ih =>
    rw [splitOnChar]
    have hx : ¬ x = c := fun he => h (he ▸ List.mem_cons_self x xs)
    have hxs : c ∉ xs := fun hm => h (List.mem_cons_of_mem x hm)
    rw [if_neg hx, ih hxs]
    rfl

/-- Splitting at the first separator occurrence peels off the leading
separator-free piece. -/
theorem splitOnChar_append (c : Char) (a b : List Char) (h : c ∉ a) :
    splitOnChar c (a ++ c :: b) = a :: splitOnChar c b := by
  induction a with
  | nil =>
    rw [List.nil_append, splitOnChar, if_pos rfl]
  | cons x xs ih =>
    have hx : ¬ x = c := fun he => h (he ▸ List.mem_cons_self x xs)
    have hxs : c ∉ xs := fun hm => h (List.mem_cons_of_mem x hm)
    rw [List.cons_append, splitOnChar, if_neg hx, ih hxs]
    rfl

/-- All characters of `str(n)` are digits (Bool form). -/
theorem digitsRec_all_digit_bool (n : Nat) : (digitsRec n).all Char.isDigit = true :=
  List.all_eq_true.mpr (fun c hc => digitsRec_all_digit n c hc)

/-- The pipe character never occurs in a decimal rendering. -/
theorem pipe_not_mem_digitsRec (n : Nat) : '|' ∉ digitsRec n := by
  intro hm
  have := digitsRec_all_digit n '|' hm
  simp [Char.isDigit] at this

/-- The comma character never occurs in a decimal rendering. -/
theorem comma_not_mem_digitsRec (n : Nat) : ',' ∉ digitsRec n := by
  intro hm
  have := digitsRec_all_digit n ',' hm
  simp [Char.isDigit] at this

/-- Character data of the encoded per-client piece. -/
theorem clientEntryStr_data (x : ClientEntry) :
    (clientEntryStr x).data =
      x.ip.data ++ '|' :: (x.name.data ++ '|' :: digitsRec x.count) := by
  show (x.ip ++ "|" ++ x.name ++ "|" ++ toString x.count).data = _
  rw [String.data_append, String.data_append, String.data_append, String.data_append,
    data_pipe, toString_nat_data]
  simp

/-- An entry is delimiter-clean when neither its IP nor its name contains
a comma or a pipe character. -/
def clientEntryClean (x : ClientEntry) : Prop :=
  (',' ∉ x.ip.data ∧ '|' ∉ x.ip.data) ∧ (',' ∉ x.name.data ∧ '|' ∉ x.name.data)

instance (x : ClientEntry) : Decidable (clientEntryClean x) := by
  unfold clientEntryClean
  infer_instance

/-- No comma occurs inside one encoded per-client piece of a clean entry. -/
theorem comma_not_mem_clientEntryStr (x : ClientEntry) (h : clientEntryClean x) :
    ',' ∉ (clientEntryStr x).data := by
  rw [clientEntryStr_data]
  intro hm
  rw [List.mem_append] at hm
  cases hm with
  | inl hm => exact h.1.1 hm
  | inr hm =>
    rw [List.mem_cons] at hm
    cases hm with
    | inl hm => exact absurd hm (by decide)
    | inr hm =>
      rw [List.mem_append] at hm
      cases hm with
      | inl hm => exact h.2.1 hm
      | inr hm =>
        rw [List.mem_cons] at hm
        cases hm with
        | inl hm => exact absurd hm (by decide)
        | inr hm => exact comma_not_mem_digitsRec x.count hm

/-- Decoding one encoded per-client piece of a clean entry recovers the
entry. -/
theorem decodeClientChunk_encode (x : ClientEntry) (h : clientEntryClean x) :
    decodeClientChunk (clientEntryStr x).data = some (x.ip, x.name, x.count) := by
  have hsplit : splitOnChar '|' (clientEntryStr x).data =
      [x.ip.data, x.name.data, digitsRec x.count] := by
    rw [clientEntryStr_data, splitOnChar_append '|' _ _ h.1.2,
      splitOnChar_append '|' _ _ h.2.2,
      splitOnChar_not_mem '|' _ (pipe_not_mem_digitsRec x.count)]
  have hparse : parseCount (digitsRec x.count) = some x.count := by
    rw [parseCount, if_pos ⟨digitsRec_ne_nil x.count, digitsRec_all_digit_bool x.count⟩,
      digitsVal_digitsRec]
  rw [decodeClientChunk, hsplit]
  simp only [hparse, string_mk_data]
  rfl

/-- The join of at least two pieces unfolds one comma. -/
theorem strJoin_cons_cons (a b : String) (t : List String) :
    strJoin "," (a :: b :: t) = a ++ "," ++ strJoin "," (b :: t) := rfl

/-- Decoding the encoded join of a non-empty clean top-clients list
recovers the list of tuples in order. -/
theorem decode_strJoin_clients (l : List ClientEntry) (hne : l ≠ [])
    (hclean : ∀ x ∈ l, clientEntryClean x) :
    decodeTopClients (strJoin "," (l.map clientEntryStr)) =
      some (l.map (fun x => (x.ip, x.name, x.count))) := by
  induction l with
  | nil => exact absurd rfl hne
  | cons e rest ih =>
    have hce : clientEntryClean e := hclean e (List.mem_cons_self e rest)
    cases rest with
    | nil =>
      show decodeTopClients (clientEntryStr e) = _
      rw [decodeTopClients,
        splitOnChar_not_mem ',' _ (comma_not_mem_clientEntryStr e hce)]
      rw [List.mapM_cons, List.mapM_nil, decodeClientChunk_encode e hce]
      rfl
    | cons r rs =>
      show decodeTopClients
          (clientEntryStr e ++ "," ++ strJoin "," ((r :: rs).map clientEntryStr)) = _
      rw [decodeTopClients]
      have hdata :
          (clientEntryStr e ++ "," ++ strJoin "," ((r :: rs).map clientEntryStr)).data =
            (clientEntryStr e).data ++
              ',' :: (strJoin "," ((r :: rs).map clientEntryStr)).data := by
        rw [String.data_append, String.data_append, data_comma]
        simp
      rw [hdata, splitOnChar_append ',' _ _ (comma_not_mem_clientEntryStr e hce)]
      have ihr := ih (by simp) (fun x hx => hclean x (List.mem_cons_of_mem e hx))
      rw [decodeTopClients] at ihr
      rw [List.mapM_cons, decodeClientChunk_encode e hce, ihr]
      rfl

/-- Whether an `Except` result is a success (no Python exception escaped). -/
def exceptIsOk {ε α : Type} : Except ε α → Bool
  | Except.ok _ => true
  | Except.error _ => false

/-- Bind on a successful `Except` applies the continuation. -/
theorem exbind_ok {ε α β : Type} (a : α) (f : α → Except ε β) :
    (Except.ok a : Except ε α) >>= f = f a := rfl

/-- Key-presence of the summary dict: every key popped by the summary
section of `_write_to_influxdb` is present. -/
def summaryKeysOk (s : SummaryDict) : Bool :=
  s.gravity.isSome && s.clients.isSome &&
    (match s.queries with
     | some q => q.replies.isSome && q.status.isSome && q.types.isSome
     | none => false)

/-- Key-presence of the history dict and its entries. -/
def historyKeysOk (h : HistoryDict) : Bool :=
  match h.history with
  | some entries => entries.all (fun e => e.timestamp.isSome)
  | none => false

/-- Key-presence of the blocking dict. -/
def blockingKeysOk (b : BlockingDict) : Bool :=
  b.blocking.isSome && b.timer.isSome

/-- Lift a dict well-formedness check over an absent category (an absent
category is skipped, hence trivially fine). -/
def optOk {α : Type} (f : α → Bool) : Option α → Bool
  | none => true
  | some a => f a

/-- All categories present in a job's snapshot contain the keys that
`_write_to_influxdb` accesses. -/
def jobKeysOk (j : JobInput) : Bool :=
  optOk summaryKeysOk j.summary &&
  optOk (fun t => t.clients.isSome) j.topClients &&
  optOk (fun t => t.domains.isSome) j.topPermittedDomains &&
  optOk (fun t => t.domains.isSome) j.topBlockedDomains &&
  optOk (fun t => t.upstreams.isSome) j.upstreams &&
  optOk historyKeysOk j.history &&
  optOk blockingKeysOk j.blocking

/-- The summary section succeeds when the summary keys are present. -/
theorem summaryPoints_exists_ok (tags : List (String × Option String)) (now : Int)
    (o : Option SummaryDict) (h : optOk summaryKeysOk o = true) :
    ∃ pts, summaryPoints tags now o = Except.ok pts := by
  cases o with
  | none => exact ⟨[], rfl⟩
  | some s =>
    obtain ⟨g, c, q⟩ := s
    simp only [optOk, summaryKeysOk, Bool.and_eq_true] at h
    cases g with
    | none => simp [Option.isSome] at h
    | some gv =>
      cases c with
      | none => simp [Option.isSome] at h
      | some cv =>
        cases q with
        | none => simp at h
        | some qd =>
          obtain ⟨r, st, ty, rest⟩ := qd
          cases r with
          | none => simp [Option.isSome] at h
          | some rv =>
            cases st with
            | none => simp [Option.isSome] at h
            | some stv =>
              cases ty with
              | none => simp [Option.isSome] at h
              | some tyv => exact ⟨_, rfl⟩

/-- The top-clients section succeeds when the `clients` key is present. -/
theorem topClientsPoints_exists_ok (tags : List (String × Option String)) (now : Int)
    (o : Option TopClientsDict) (h : optOk (fun t => t.clients.isSome) o = true) :
    ∃ pts, topClientsPoints tags now o = Except.ok pts := by
  cases o with
  | none => exact ⟨[], rfl⟩
  | some t =>
    obtain ⟨c⟩ := t
    cases c with
    | none => simp [optOk, Option.isSome] at h
    | some cv => exact ⟨_, rfl⟩

/-- The top-permitted-domains section succeeds when `domains` is present. -/
theorem topPermittedPoints_exists_ok (tags : List (String × Option String)) (now : Int)
    (o : Option TopDomainsDict) (h : optOk (fun t => t.domains.isSome) o = true) :
    ∃ pts, topPermittedPoints tags now o = Except.ok pts := by
  cases o with
  | none => exact ⟨[], rfl⟩
  | some t =>
    obtain ⟨d⟩ := t
    cases d with
    | none => simp [optOk, Option.isSome] at h
    | some dv => exact ⟨_, rfl⟩

/-- The top-blocked-domains section succeeds when `domains` is present. -/
theorem topBlockedPoints_exists_ok (tags : List (String × Option String)) (now : Int)
    (o : Option TopDomainsDict) (h : optOk (fun t => t.domains.isSome) o = true) :
    ∃ pts, topBlockedPoints tags now o = Except.ok pts := by
  cases o with
  | none => exact ⟨[], rfl⟩
  | some t =>
    obtain ⟨d⟩ := t
    cases d with
    | none => simp [optOk, Option.isSome] at h
    | some dv => exact ⟨_, rfl⟩

/-- The upstreams section succeeds when `upstreams` is present. -/
theorem upstreamPoints_exists_ok (tags : List (String × Option String)) (now : Int)
    (o : Option UpstreamsDict) (h : optOk (fun t => t.upstreams.isSome) o = true) :
    ∃ pts, upstreamPoints tags now o = Except.ok pts := by
  cases o with
  | none => exact ⟨[], rfl⟩
  | some t =>
    obtain ⟨u⟩ := t
    cases u with
    | none => simp [optOk, Option.isSome] at h
    | some uv => exact ⟨_, rfl⟩

/-- The inner history traversal succeeds when every entry has its
`timestamp` key. -/
theorem historyEntries_mapM_ok (tags : List (String × Option String)) :
    ∀ entries : List HistoryEntry, entries.all (fun e => e.timestamp.isSome) = true →
      ∃ pts, entries.mapM (fun e => do
          let ts ← popKey e.timestamp "timestamp"
          Except.ok (create_point "history" tags e.rest ts (uintTypes e.rest))) =
        (Except.ok pts : Except PyErr (List Point)) := by
  intro entries h
  induction entries with
  | nil => exact ⟨[], rfl⟩
  | cons e es ih =>
    rw [List.all_cons, Bool.and_eq_true] at h
    obtain ⟨pts, hpts⟩ := ih h.2
    obtain ⟨tv, htv⟩ : ∃ tv, e.timestamp = some tv := by
      cases he : e.timestamp with
      | none => rw [he] at h; simp [Option.isSome] at h
      | some tv => exact ⟨tv, rfl⟩
    refine ⟨create_point "history" tags e.rest tv (uintTypes e.rest) :: pts, ?_⟩
    rw [List.mapM_cons]
    simp only [htv, hpts]
    rfl

/-- The history section succeeds when its keys are present. -/
theorem historyPoints_exists_ok (tags : List (String × Option String))
    (o : Option HistoryDict) (h : optOk historyKeysOk o = true) :
    ∃ pts, historyPoints tags o = Except.ok pts := by
  cases o with
  | none => exact ⟨[], rfl⟩
  | some hd =>
    obtain ⟨entries⟩ := hd
    cases entries with
    | none => simp [optOk, historyKeysOk] at h
    | some es =>
      simp only [optOk, historyKeysOk] at h
      obtain ⟨pts, hpts⟩ := historyEntries_mapM_ok tags es h
      refine ⟨pts, ?_⟩
      show (Except.ok es >>= fun entries => entries.mapM _) = Except.ok pts
      rw [exbind_ok]
      exact hpts

/-- The blocking section succeeds when its keys are present. -/
theorem blockingPoints_exists_ok (tags : List (String × Option String)) (now : Int)
    (o : Option BlockingDict) (h : optOk blockingKeysOk o = true) :
    ∃ pts, blockingPoints tags now o = Except.ok pts := by
  cases o with
  | none => exact ⟨[], rfl⟩
  | some b =>
    obtain ⟨bl, tm⟩ := b
    simp only [optOk, blockingKeysOk, Bool.and_eq_true] at h
    cases bl with
    | none => simp [Option.isSome] at h
    | some blv =>
      cases tm with
      | none => simp [Option.isSome] at h
      | some tmv => exact ⟨_, rfl⟩

/-- Composition: when every section yields a concrete point list, the
whole `_write_to_influxdb` succeeds with the concatenation, executes the
batch write, and reports the write outcome. -/
theorem write_to_influxdb_eq (j : JobInput) (s tc tp tb up hi bl : List Point)
    (hs : summaryPoints (piholeTags j.pihole) j.nowSeconds j.summary = Except.ok s)
    (htc : topClientsPoints (piholeTags j.pihole) j.nowSeconds j.topClients = Except.ok tc)
    (htp : topPermittedPoints (piholeTags j.pihole) j.nowSeconds j.topPermittedDomains =
      Except.ok tp)
    (htb : topBlockedPoints (piholeTags j.pihole) j.nowSeconds j.topBlockedDomains =
      Except.ok tb)
    (hup : upstreamPoints (piholeTags j.pihole) j.nowSeconds j.upstreams = Except.ok up)
    (hhi : historyPoints (piholeTags j.pihole) j.history = Except.ok hi)
    (hbl : blockingPoints (piholeTags j.pihole) j.nowSeconds j.blocking = Except.ok bl) :
    write_to_influxdb j = Except.ok
      { points := s ++ tc ++ tp ++ tb ++ up ++ hi ++ bl,
        writeExecuted := true,
        writeOk := !j.writeFails } := by
  rw [write_to_influxdb]
  simp only [hs, htc, htp, htb, hup, hhi, hbl, exbind_ok]

/-- A fixed sample Pi-hole instance used in witnesses. -/
def samplePihole : Pihole :=
  { aliasName := some "pihole", address := some "http://pi.hole:80",
    requestTimeout := 30, password := some "pw", sid := none }

/-- C1: for every non-empty top-N list, the transformation encodes the
whole list as one string field: entries joined with commas, each entry's
fields joined with pipes (`ip|name|count` for clients, `domain|count` for
permitted and blocked domains, `ip|name|port|count|response|variance` for
upstreams); in particular the two-client snapshot of the claim encodes to
`"10.0.0.2|host2|5,10.0.0.3|host3|2"`. -/
theorem claim_C1 :
    (∀ tags now clients, clients ≠ [] →
      topClientsPoints tags now (some { clients := some clients }) =
        Except.ok [create_point "top_clients" tags
          [("top_clients", PyVal.str (strJoin "," (clients.map (fun x =>
            x.ip ++ "|" ++ x.name ++ "|" ++ toString x.count))))] now
          [("top_clients", "str")]]) ∧
    (∀ tags now domains, domains ≠ [] →
      topPermittedPoints tags now (some { domains := some domains }) =
        Except.ok [create_point "top_permitted_domains" tags
          [("top_permitted_domains", PyVal.str (strJoin "," (domains.map (fun x =>
            x.domain ++ "|" ++ toString x.count))))] now
          [("top_permitted_domains", "str")]]) ∧
    (∀ tags now domains, domains ≠ [] →
      topBlockedPoints tags now (some { domains := some domains }) =
        Except.ok [create_point "top_blocked_domains" tags
          [("top_blocked_domains", PyVal.str (strJoin "," (domains.map (fun x =>
            x.domain ++ "|" ++ toString x.count))))] now
          [("top_blocked_domains", "str")]]) ∧
    (∀ tags now ups, ups ≠ [] →
      upstreamPoints tags now (some { upstreams := some ups }) =
        Except.ok [create_point "upstreams" tags
          [("upstreams", PyVal.str (strJoin "," (ups.map (fun x =>
            x.ip ++ "|" ++ x.name ++ "|" ++ toString x.port ++ "|" ++ toString x.count ++
              "|" ++ x.statistics.response ++ "|" ++ x.statistics.variance))))] now
          [("upstreams", "str")]]) ∧
    topClientsPoints [] 0 (some { clients := some [
        { ip := "10.0.0.2", name := "host2", count := 5 },
        { ip := "10.0.0.3", name := "host3", count := 2 }] }) =
      Except.ok [create_point "top_clients" []
        [("top_clients", PyVal.str "10.0.0.2|host2|5,10.0.0.3|host3|2")] 0
        [("top_clients", "str")]] := by
  refine ⟨?_, ?_, ?_, ?_, ?_⟩
  · intro tags now clients _h
    rfl
  · intro tags now domains _h
    rfl
  · intro tags now domains _h
    rfl
  · intro tags now ups _h
    rfl
  · rfl

/-- Witness for C1 at concrete inputs. -/
theorem claim_C1_witness :
    topClientsPoints [] 0 (some { clients := some [
        { ip := "10.0.0.9", name := "h9", count := 7 }] }) =
      Except.ok [create_point "top_clients" []
        [("top_clients", PyVal.str "10.0.0.9|h9|7")] 0 [("top_clients", "str")]] := by
  have h := claim_C1.1 [] 0 [{ ip := "10.0.0.9", name := "h9", count := 7 }] (by decide)
  rw [h]
  rfl

/-- C2 counterexample: an entry whose name contains a comma does not
round-trip — the claim fails for arbitrary entry contents. -/
theorem claim_C2_counterexample :
    decodeTopClients (strJoin ","
        ([{ ip := "10.0.0.2", name := "a,b", count := 5 }].map clientEntryStr)) ≠
      some ([{ ip := "10.0.0.2", name := "a,b", count := 5 }].map
        (fun x : ClientEntry => (x.ip, x.name, x.count))) := by
  decide

/-- C2 (amended): for every non-empty top-N list whose identifier and
name fields contain neither a comma nor a pipe, splitting the encoded
string on commas and each entry on pipes yields back the original list of
`(identifier, secondary, count)` tuples in order. -/
theorem claim_C2 (l : List ClientEntry) (hne : l ≠ [])
    (hclean : ∀ x ∈ l, clientEntryClean x)
    (tags : List (String × Option String)) (now : Int) :
    topClientsPoints tags now (some { clients := some l }) =
      Except.ok [create_point "top_clients" tags
        [("top_clients", PyVal.str (strJoin "," (l.map clientEntryStr)))] now
        [("top_clients", "str")]] ∧
    decodeTopClients (strJoin "," (l.map clientEntryStr)) =
      some (l.map (fun x => (x.ip, x.name, x.count))) :=
  ⟨rfl, decode_strJoin_clients l hne hclean⟩

/-- Witness for C2 at the spec's sample two-client list. -/
theorem claim_C2_witness :
    decodeTopClients "10.0.0.2|host2|5,10.0.0.3|host3|2" =
      some [("10.0.0.2", "host2", 5), ("10.0.0.3", "host3", 2)] := by
  have h := (claim_C2
    [{ ip := "10.0.0.2", name := "host2", count := 5 },
     { ip := "10.0.0.3", name := "host3", count := 2 }]
    (by decide) (by decide) [] 0).2
  rw [show strJoin ","
      (([{ ip := "10.0.0.2", name := "host2", count := 5 },
         { ip := "10.0.0.3", name := "host3", count := 2 }] : List ClientEntry).map
        clientEntryStr) = "10.0.0.2|host2|5,10.0.0.3|host3|2" from rfl] at h
  exact h

/-- C5 counterexample: when the login call itself errors (`_api_call`
returns `None`), `authenticate` raises `AttributeError` on
`None.json()` instead of returning a failure result. -/
theorem claim_C5_counterexample :
    authenticate samplePihole none =
      Except.error (PyErr.attributeError "NoneType object has no attribute json") := rfl

/-- C5 (amended): `authenticate` returns the stored session token on
success and returns `False` — without raising — when the remote reports an
invalid session; but when the call itself errors it raises
`AttributeError` rather than returning a failure result. -/
theorem claim_C5 :
    (∀ p s, s.valid = false → authenticate p (some s) = Except.ok (p, false)) ∧
    (∀ p s, s.valid = true →
      authenticate p (some s) =
        Except.ok ({ p with sid := some s.sid, password := some "" }, true)) ∧
    (∀ p, exceptIsOk (authenticate p none) = false) := by
  refine ⟨?_, ?_, ?_⟩
  · intro p s h
    simp [authenticate, h]
  · intro p s h
    simp [authenticate, h]
  · intro p
    rfl

/-- Witness for C5 at concrete inputs. -/
theorem claim_C5_witness :
    authenticate samplePihole (some { valid := false, sid := "t0" }) =
        Except.ok (samplePihole, false) ∧
    authenticate samplePihole (some { valid := true, sid := "t0" }) =
        Except.ok ({ samplePihole with sid := some "t0", password := some "" }, true) ∧
    exceptIsOk (authenticate samplePihole none) = false :=
  ⟨claim_C5.1 samplePihole { valid := false, sid := "t0" } rfl,
   claim_C5.2.1 samplePihole { valid := true, sid := "t0" } rfl,
   claim_C5.2.2 samplePihole⟩

/-- C7: every blocking-status snapshot yields exactly one point whose
fields are a string-typed `blocking` and a signed-integer-typed `timer`,
with a `null` timer encoded as `-1`; in particular
`{blocking: "enabled", timer: null}` yields fields
`{blocking: "enabled", timer: -1}`. -/
theorem claim_C7 :
    (∀ tags now bl tm,
      blockingPoints tags now (some { blocking := some bl, timer := some tm }) =
        Except.ok [create_point "blocking" tags
          [("blocking", PyVal.str bl), ("timer", PyVal.int (tm.getD (-1)))] now
          [("blocking", "str"), ("timer", "int")]]) ∧
    blockingPoints [] 0 (some { blocking := some "enabled", timer := some none }) =
      Except.ok [create_point "blocking" []
        [("blocking", PyVal.str "enabled"), ("timer", PyVal.int (-1))] 0
        [("blocking", "str"), ("timer", "int")]] := by
  refine ⟨?_, rfl⟩
  intro tags now bl tm
  cases tm <;> rfl

/-- C9: if the bucket lookup raises, or the bucket is absent and creation
is disabled, `_verify_bucket` returns false and `start` exits with status
1 before any job is registered or run. -/
theorem claim_C9 (findResult : Except String (Option Unit)) (createBucket : Bool)
    (createResult : Except String Unit) (numInstances : Nat)
    (h : (∃ e, findResult = Except.error e) ∨
      (findResult = Except.ok none ∧ createBucket = false)) :
    verify_bucket findResult createBucket createResult = false ∧
    start (verify_bucket findResult createBucket createResult) numInstances =
      StartOutcome.exited 1 := by
  have hv : verify_bucket findResult createBucket createResult = false := by
    rcases h with ⟨e, he⟩ | ⟨hf, hc⟩
    · rw [he]
      rfl
    · rw [hf, hc]
      rfl
  exact ⟨hv, by rw [hv]; rfl⟩

/-- Witness for C9 at concrete inputs (the lookup raises). -/
theorem claim_C9_witness :
    verify_bucket (Except.error "connection refused") true (Except.ok ()) = false ∧
    start (verify_bucket (Except.error "connection refused") true (Except.ok ())) 3 =
      StartOutcome.exited 1 :=
  claim_C9 (Except.error "connection refused") true (Except.ok ()) 3
    (Or.inl ⟨"connection refused", rfl⟩)

/-- A summary dict with all keys present but missing the `gravity` key,
triggering a `KeyError` in the transform step. -/
def badSummary : SummaryDict :=
  { gravity := none, clients := some [("active", PyVal.nat 1)],
    queries := some { replies := some [("A", PyVal.nat 1)],
                      status := some [("OK", PyVal.nat 1)],
                      types := some [("A", PyVal.nat 1)],
                      rest := [("total", PyVal.nat 1)] } }

/-- A job input whose summary dict lacks the `gravity` key. -/
def badJob : JobInput :=
  { pihole := samplePihole, nowSeconds := 0, summary := some badSummary,
    topClients := none, topPermittedDomains := none, topBlockedDomains := none,
    upstreams := none, history := none, blocking := none, writeFails := false }

/-- C3 counterexample: a snapshot whose summary dict is present but lacks
the `gravity` key makes the job raise `KeyError`; `_run_job` and the
scheduler loop have no handler, so the exception escapes the job and a
pending-jobs pass aborts. -/
theorem claim_C3_counterexample :
    run_job badJob = Except.error (PyErr.keyError "gravity") ∧
    run_pending [badJob] = Except.error (PyErr.keyError "gravity") := by
  constructor
  · rfl
  · rfl

/-- C3 (amended): provided every category present in the snapshot contains
the keys the transform accesses, no exception escapes the job — fetch
failures (absent categories) and store-side write failures are absorbed,
and a pending-jobs pass over any list of such jobs completes. -/
theorem claim_C3 (jobs : List JobInput) (h : jobs.all jobKeysOk = true) :
    exceptIsOk (run_pending jobs) = true := by
  induction jobs with
  | nil => rfl
  | cons j js ih =>
    rw [List.all_cons, Bool.and_eq_true] at h
    have hj : ∃ r, run_job j = Except.ok r := by
      have hk := h.1
      rw [jobKeysOk] at hk
      simp only [Bool.and_eq_true] at hk
      obtain ⟨⟨⟨⟨⟨⟨h1, h2⟩, h3⟩, h4⟩, h5⟩, h6⟩, h7⟩ := hk
      obtain ⟨s, hs⟩ := summaryPoints_exists_ok (piholeTags j.pihole) j.nowSeconds j.summary h1
      obtain ⟨tc, htc⟩ :=
        topClientsPoints_exists_ok (piholeTags j.pihole) j.nowSeconds j.topClients h2
      obtain ⟨tp, htp⟩ :=
        topPermittedPoints_exists_ok (piholeTags j.pihole) j.nowSeconds j.topPermittedDomains h3
      obtain ⟨tb, htb⟩ :=
        topBlockedPoints_exists_ok (piholeTags j.pihole) j.nowSeconds j.topBlockedDomains h4
      obtain ⟨up, hup⟩ :=
        upstreamPoints_exists_ok (piholeTags j.pihole) j.nowSeconds j.upstreams h5
      obtain ⟨hi, hhi⟩ := historyPoints_exists_ok (piholeTags j.pihole) j.history h6
      obtain ⟨bl, hbl⟩ :=
        blockingPoints_exists_ok (piholeTags j.pihole) j.nowSeconds j.blocking h7
      exact ⟨_, write_to_influxdb_eq j s tc tp tb up hi bl hs htc htp htb hup hhi hbl⟩
    obtain ⟨r, hr⟩ := hj
    obtain ⟨rs, hrs⟩ : ∃ rs, run_pending js = Except.ok rs := by
      have := ih h.2
      cases hjs : run_pending js with
      | ok rs => exact ⟨rs, rfl⟩
      | error e => rw [hjs] at this; simp [exceptIsOk] at this
    rw [run_pending, List.mapM_cons]
    simp only [hr]
    show exceptIsOk (Except.ok r >>= fun x => (js.mapM run_job >>= fun xs => pure (x :: xs))) = true
    rw [exbind_ok]
    rw [show js.mapM run_job = run_pending js from rfl, hrs]
    rfl

/-- Bind on a failed `Except` short-circuits. -/
theorem exbind_err {ε α β : Type} (e : ε) (f : α → Except ε β) :
    (Except.error e : Except ε α) >>= f = Except.error e := rfl

/-- Non-emptiness of an optional fields dict. -/
def neFields : Option Fields → Bool
  | some fs => !fs.isEmpty
  | none => false

/-- All fields dicts encoded from the summary are non-empty. -/
def summaryFieldsOk (s : SummaryDict) : Bool :=
  neFields s.gravity && neFields s.clients &&
    (match s.queries with
     | some q => neFields q.replies && neFields q.status && neFields q.types && !q.rest.isEmpty
     | none => false)

/-- Every history bucket keeps at least one field besides its timestamp. -/
def historyFieldsOk (h : HistoryDict) : Bool :=
  match h.history with
  | some entries => entries.all (fun e => !e.rest.isEmpty)
  | none => false

/-- Inversion of `_write_to_influxdb`: a successful run determines the
per-section point lists and the result record. -/
theorem write_to_influxdb_inv (j : JobInput) (r : WriteResult)
    (h : write_to_influxdb j = Except.ok r) :
    ∃ s tc tp tb up hi bl,
      summaryPoints (piholeTags j.pihole) j.nowSeconds j.summary = Except.ok s ∧
      topClientsPoints (piholeTags j.pihole) j.nowSeconds j.topClients = Except.ok tc ∧
      topPermittedPoints (piholeTags j.pihole) j.nowSeconds j.topPermittedDomains =
        Except.ok tp ∧
      topBlockedPoints (piholeTags j.pihole) j.nowSeconds j.topBlockedDomains =
        Except.ok tb ∧
      upstreamPoints (piholeTags j.pihole) j.nowSeconds j.upstreams = Except.ok up ∧
      historyPoints (piholeTags j.pihole) j.history = Except.ok hi ∧
      blockingPoints (piholeTags j.pihole) j.nowSeconds j.blocking = Except.ok bl ∧
      r = { points := s ++ tc ++ tp ++ tb ++ up ++ hi ++ bl,
            writeExecuted := true, writeOk := !j.writeFails } := by
  rw [write_to_influxdb] at h
  cases hs : summaryPoints (piholeTags j.pihole) j.nowSeconds j.summary with
  | error e => rw [hs, exbind_err] at h; exact Except.noConfusion h
  | ok s =>
  rw [hs, exbind_ok] at h
  cases htc : topClientsPoints (piholeTags j.pihole) j.nowSeconds j.topClients with
  | error e => rw [htc, exbind_err] at h; exact Except.noConfusion h
  | ok tc =>
  rw [htc, exbind_ok] at h
  cases htp : topPermittedPoints (piholeTags j.pihole) j.nowSeconds j.topPermittedDomains with
  | error e => rw [htp, exbind_err] at h; exact Except.noConfusion h
  | ok tp =>
  rw [htp, exbind_ok] at h
  cases htb : topBlockedPoints (piholeTags j.pihole) j.nowSeconds j.topBlockedDomains with
  | error e => rw [htb, exbind_err] at h; exact Except.noConfusion h
  | ok tb =>
  rw [htb, exbind_ok] at h
  cases hup : upstreamPoints (piholeTags j.pihole) j.nowSeconds j.upstreams with
  | error e => rw [hup, exbind_err] at h; exact Except.noConfusion h
  | ok up =>
  rw [hup, exbind_ok] at h
  cases hhi : historyPoints (piholeTags j.pihole) j.history with
  | error e => rw [hhi, exbind_err] at h; exact Except.noConfusion h
  | ok hi =>
  rw [hhi, exbind_ok] at h
  cases hbl : blockingPoints (piholeTags j.pihole) j.nowSeconds j.blocking with
  | error e => rw [hbl, exbind_err] at h; exact Except.noConfusion h
  | ok bl =>
  rw [hbl, exbind_ok] at h
  exact ⟨s, tc, tp, tb, up, hi, bl, rfl, rfl, rfl, rfl, rfl, rfl, rfl,
    (Except.ok.inj h).symm⟩

/-- Shape of the points of a successful summary section. -/
theorem summaryPoints_props (tags : List (String × Option String)) (now : Int)
    (o : Option SummaryDict) (pts : List Point)
    (h : summaryPoints tags now o = Except.ok pts) :
    ∀ p ∈ pts, p.tags = tags ∧ p.precision = "s" ∧ p.time = now ∧
      p.measurement ∈ (["gravity", "clients", "query_replies", "query_statuses",
        "query_types", "queries"] : List String) ∧
      (optOk summaryFieldsOk o = true → p.fields ≠ []) := by
  cases o with
  | none =>
    have hpts : pts = [] := (Except.ok.inj h).symm
    subst hpts
    intro p hp
    cases hp
  | some s =>
    obtain ⟨g, c, q⟩ := s
    cases g with
    | none => exact Except.noConfusion h
    | some gv =>
    cases c with
    | none => exact Except.noConfusion h
    | some cv =>
    cases q with
    | none => exact Except.noConfusion h
    | some qd =>
    obtain ⟨qr, qs, qt, qrest⟩ := qd
    cases qr with
    | none => exact Except.noConfusion h
    | some qrv =>
    cases qs with
    | none => exact Except.noConfusion h
    | some qsv =>
    cases qt with
    | none => exact Except.noConfusion h
    | some qtv =>
    have hpts : pts =
        [ create_point "gravity" tags gv now (uintTypes gv),
          create_point "clients" tags cv now (uintTypes cv),
          create_point "query_replies" tags qrv now (uintTypes qrv),
          create_point "query_statuses" tags qsv now (uintTypes qsv),
          create_point "query_types" tags qtv now (uintTypes qtv),
          create_point "queries" tags qrest now (queriesRestTypes qrest) ] :=
      (Except.ok.inj h).symm
    subst hpts
    intro p hp
    have hwfx : optOk summaryFieldsOk (some
        { gravity := some gv, clients := some cv,
          queries := some { replies := some qrv, status := some qsv,
                            types := some qtv, rest := qrest } }) = true →
        gv ≠ [] ∧ cv ≠ [] ∧ qrv ≠ [] ∧ qsv ≠ [] ∧ qtv ≠ [] ∧ qrest ≠ [] := by
      intro hwf
      have hne : ∀ l : Fields, (!l.isEmpty) = true → l ≠ [] := by
        intro l hl hnil
        subst hnil
        simp at hl
      simp only [optOk, summaryFieldsOk, neFields, Bool.and_eq_true] at hwf
      exact ⟨hne _ hwf.1.1, hne _ hwf.1.2, hne _ hwf.2.1.1.1, hne _ hwf.2.1.1.2,
        hne _ hwf.2.1.2, hne _ hwf.2.2⟩
    simp only [List.mem_cons, List.not_mem_nil, or_false] at hp
    rcases hp with rfl | rfl | rfl | rfl | rfl | rfl
    · exact ⟨rfl, rfl, rfl, by simp [create_point], fun hwf => (hwfx hwf).1⟩
    · exact ⟨rfl, rfl, rfl, by simp [create_point], fun hwf => (hwfx hwf).2.1⟩
    · exact ⟨rfl, rfl, rfl, by simp [create_point], fun hwf => (hwfx hwf).2.2.1⟩
    · exact ⟨rfl, rfl, rfl, by simp [create_point], fun hwf => (hwfx hwf).2.2.2.1⟩
    · exact ⟨rfl, rfl, rfl, by simp [create_point], fun hwf => (hwfx hwf).2.2.2.2.1⟩
    · exact ⟨rfl, rfl, rfl, by simp [create_point], fun hwf => (hwfx hwf).2.2.2.2.2⟩

/-- Shape of the single point of a successful top-clients section. -/
theorem topClientsPoints_props (tags : List (String × Option String)) (now : Int)
    (o : Option TopClientsDict) (pts : List Point)
    (h : topClientsPoints tags now o = Except.ok pts) :
    ∀ p ∈ pts, p.tags = tags ∧ p.precision = "s" ∧ p.time = now ∧
      p.measurement = "top_clients" ∧ p.fields ≠ [] := by
  cases o with
  | none =>
    have hpts : pts = [] := (Except.ok.inj h).symm
    subst hpts
    intro p hp
    cases hp
  | some t =>
    obtain ⟨c⟩ := t
    cases c with
    | none => exact Except.noConfusion h
    | some cv =>
      have hpts : pts = [create_point "top_clients" tags
          [("top_clients", PyVal.str (strJoin "," (cv.map clientEntryStr)))] now
          [("top_clients", "str")]] := (Except.ok.inj h).symm
      subst hpts
      intro p hp
      simp only [List.mem_cons, List.not_mem_nil, or_false] at hp
      subst hp
      exact ⟨rfl, rfl, rfl, rfl, by simp [create_point]⟩

/-- Shape of the single point of a successful top-permitted section. -/
theorem topPermittedPoints_props (tags : List (String × Option String)) (now : Int)
    (o : Option TopDomainsDict) (pts : List Point)
    (h : topPermittedPoints tags now o = Except.ok pts) :
    ∀ p ∈ pts, p.tags = tags ∧ p.precision = "s" ∧ p.time = now ∧
      p.measurement = "top_permitted_domains" ∧ p.fields ≠ [] := by
  cases o with
  | none =>
    have hpts : pts = [] := (Except.ok.inj h).symm
    subst hpts
    intro p hp
    cases hp
  | some t =>
    obtain ⟨d⟩ := t
    cases d with
    | none => exact Except.noConfusion h
    | some dv =>
      have hpts : pts = [create_point "top_permitted_domains" tags
          [("top_permitted_domains", PyVal.str (strJoin "," (dv.map domainEntryStr)))] now
          [("top_permitted_domains", "str")]] := (Except.ok.inj h).symm
      subst hpts
      intro p hp
      simp only [List.mem_cons, List.not_mem_nil, or_false] at hp
      subst hp
      exact ⟨rfl, rfl, rfl, rfl, by simp [create_point]⟩

/-- Shape of the single point of a successful top-blocked section. -/
theorem topBlockedPoints_props (tags : List (String × Option String)) (now : Int)
    (o : Option TopDomainsDict) (pts : List Point)
    (h : topBlockedPoints tags now o = Except.ok pts) :
    ∀ p ∈ pts, p.tags = tags ∧ p.precision = "s" ∧ p.time = now ∧
      p.measurement = "top_blocked_domains" ∧ p.fields ≠ [] := by
  cases o with
  | none =>
    have hpts : pts = [] := (Except.ok.inj h).symm
    subst hpts
    intro p hp
    cases hp
  | some t =>
    obtain ⟨d⟩ := t
    cases d with
    | none => exact Except.noConfusion h
    | some dv =>
      have hpts : pts = [create_point "top_blocked_domains" tags
          [("top_blocked_domains", PyVal.str (strJoin "," (dv.map domainEntryStr)))] now
          [("top_blocked_domains", "str")]] := (Except.ok.inj h).symm
      subst hpts
      intro p hp
      simp only [List.mem_cons, List.not_mem_nil, or_false] at hp
      subst hp
      exact ⟨rfl, rfl, rfl, rfl, by simp [create_point]⟩

/-- Shape of the single point of a successful upstreams section. -/
theorem upstreamPoints_props (tags : List (String × Option String)) (now : Int)
    (o : Option UpstreamsDict) (pts : List Point)
    (h : upstreamPoints tags now o = Except.ok pts) :
    ∀ p ∈ pts, p.tags = tags ∧ p.precision = "s" ∧ p.time = now ∧
      p.measurement = "upstreams" ∧ p.fields ≠ [] := by
  cases o with
  | none =>
    have hpts : pts = [] := (Except.ok.inj h).symm
    subst hpts
    intro p hp
    cases hp
  | some t =>
    obtain ⟨u⟩ := t
    cases u with
    | none => exact Except.noConfusion h
    | some uv =>
      have hpts : pts = [create_point "upstreams" tags
          [("upstreams", PyVal.str (strJoin "," (uv.map upstreamEntryStr)))] now
          [("upstreams", "str")]] := (Except.ok.inj h).symm
      subst hpts
      intro p hp
      simp only [List.mem_cons, List.not_mem_nil, or_false] at hp
      subst hp
      exact ⟨rfl, rfl, rfl, rfl, by simp [create_point]⟩

/-- Shape of the single point of a successful blocking section. -/
theorem blockingPoints_props (tags : List (String × Option String)) (now : Int)
    (o : Option BlockingDict) (pts : List Point)
    (h : blockingPoints tags now o = Except.ok pts) :
    ∀ p ∈ pts, p.tags = tags ∧ p.precision = "s" ∧ p.time = now ∧
      p.measurement = "blocking" ∧ p.fields ≠ [] := by
  cases o with
  | none =>
    have hpts : pts = [] := (Except.ok.inj h).symm
    subst hpts
    intro p hp
    cases hp
  | some b =>
    obtain ⟨bl, tm⟩ := b
    cases bl with
    | none => exact Except.noConfusion h
    | some blv =>
    cases tm with
    | none => exact Except.noConfusion h
    | some tmv =>
      have hpts : pts = [create_point "blocking" tags
          [("blocking", PyVal.str blv), ("timer", PyVal.int (tmv.getD (-1)))] now
          [("blocking", "str"), ("timer", "int")]] := (Except.ok.inj h).symm
      subst hpts
      intro p hp
      simp only [List.mem_cons, List.not_mem_nil, or_false] at hp
      subst hp
      exact ⟨rfl, rfl, rfl, rfl, by simp [create_point]⟩

/-- Shape of the points of the inner history traversal. -/
theorem historyEntries_mapM_props (tags : List (String × Option String)) :
    ∀ (entries : List HistoryEntry) (pts : List Point),
      entries.mapM (fun e => do
          let ts ← popKey e.timestamp "timestamp"
          Except.ok (create_point "history" tags e.rest ts (uintTypes e.rest))) =
        (Except.ok pts : Except PyErr (List Point)) →
      ∀ p ∈ pts, ∃ e ∈ entries, ∃ tv,
        p = create_point "history" tags e.rest tv (uintTypes e.rest) := by
  intro entries
  induction entries with
  | nil =>
    intro pts h p hp
    have hpts : pts = [] := (Except.ok.inj h).symm
    subst hpts
    cases hp
  | cons e es ih =>
    intro pts h p hp
    rw [List.mapM_cons] at h
    cases hts : e.timestamp with
    | none =>
      rw [hts] at h
      exact Except.noConfusion h
    | some tv =>
      rw [hts] at h
      cases hrec : es.mapM (fun e => do
          let ts ← popKey e.timestamp "timestamp"
          Except.ok (create_point "history" tags e.rest ts (uintTypes e.rest))) with
      | error er =>
        rw [hrec] at h
        exact Except.noConfusion h
      | ok pts' =>
        rw [hrec] at h
        have hpts : pts = create_point "history" tags e.rest tv (uintTypes e.rest) :: pts' :=
          (Except.ok.inj h).symm
        subst hpts
        rcases List.mem_cons.mp hp with rfl | hmem
        · exact ⟨e, List.mem_cons_self e es, tv, rfl⟩
        · obtain ⟨e2, he2, tv2, hp2⟩ := ih pts' hrec p hmem
          exact ⟨e2, List.mem_cons_of_mem e he2, tv2, hp2⟩

/-- Shape of the points of a successful history section. -/
theorem historyPoints_props (tags : List (String × Option String))
    (o : Option HistoryDict) (pts : List Point)
    (h : historyPoints tags o = Except.ok pts) :
    ∀ p ∈ pts, p.tags = tags ∧ p.precision = "s" ∧ p.measurement = "history" ∧
      (optOk historyFieldsOk o = true → p.fields ≠ []) := by
  cases o with
  | none =>
    have hpts : pts = [] := (Except.ok.inj h).symm
    subst hpts
    intro p hp
    cases hp
  | some hd =>
    obtain ⟨entries⟩ := hd
    cases entries with
    | none => exact Except.noConfusion h
    | some es =>
      have h2 : es.mapM (fun e => do
          let ts ← popKey e.timestamp "timestamp"
          Except.ok (create_point "history" tags e.rest ts (uintTypes e.rest))) =
          (Except.ok pts : Except PyErr (List Point)) := h
      intro p hp
      obtain ⟨e, he, tv, hpe⟩ := historyEntries_mapM_props tags es pts h2 p hp
      subst hpe
      refine ⟨rfl, rfl, rfl, fun hwf => ?_⟩
      simp only [optOk, historyFieldsOk] at hwf
      have hall := List.all_eq_true.mp hwf e he
      intro hnil
      have hrest : e.rest = [] := hnil
      rw [hrest] at hall
      simp at hall

/-- A fully populated, well-formed job input used in witnesses. -/
def goodJob : JobInput :=
  { pihole := samplePihole, nowSeconds := 100,
    summary := some
      { gravity := some [("domains_being_blocked", PyVal.nat 1000)],
        clients := some [("active", PyVal.nat 2)],
        queries := some
          { replies := some [("NODATA", PyVal.nat 3)],
            status := some [("FORWARDED", PyVal.nat 4)],
            types := some [("A", PyVal.nat 5)],
            rest := [("total", PyVal.nat 6), ("percent_blocked", PyVal.str "12.5")] } },
    topClients := some { clients := some [{ ip := "10.0.0.2", name := "host2", count := 5 }] },
    topPermittedDomains := some { domains := some [{ domain := "example.com", count := 3 }] },
    topBlockedDomains := some { domains := some [{ domain := "ads.example", count := 2 }] },
    upstreams := some { upstreams := some [
      { ip := "1.1.1.1", name := "one.one.one.one", port := 53, count := 10,
        statistics := { response := "0.01", variance := "0.001" } }] },
    history := some { history := some [
      { timestamp := some 90, rest := [("total", PyVal.nat 1)] },
      { timestamp := some 95, rest := [("total", PyVal.nat 2)] }] },
    blocking := some { blocking := some "enabled", timer := some none },
    writeFails := false }

/-- Witness for C3: a well-formed job list completes without an escaping
exception. -/
theorem claim_C3_witness :
    ([goodJob, { goodJob with writeFails := true }].all jobKeysOk = true) ∧
    exceptIsOk (run_pending [goodJob, { goodJob with writeFails := true }]) = true :=
  ⟨by decide, claim_C3 [goodJob, { goodJob with writeFails := true }] (by decide)⟩

/-- A job whose summary fetch came back absent but whose blocking fetch
succeeded. -/
def noSummaryJob : JobInput :=
  { pihole := samplePihole, nowSeconds := 0, summary := none,
    topClients := none, topPermittedDomains := none, topBlockedDomains := none,
    upstreams := none, history := none,
    blocking := some { blocking := some "enabled", timer := some none },
    writeFails := false }

/-- C4 counterexample: with the summary absent the cycle still reaches and
executes the batch write (with the blocking point), so the write step is
not skipped. -/
theorem claim_C4_counterexample :
    ∃ r, run_job noSummaryJob = Except.ok r ∧ r.writeExecuted = true ∧
      r.points.length = 1 := by
  refine ⟨_, rfl, rfl, rfl⟩

/-- C4 (amended): an absent primary statistics payload only omits the
summary-derived points; the batch write still executes for that cycle with
the other categories' points, and the job completes normally. -/
theorem claim_C4 (j : JobInput) (r : WriteResult) (hok : run_job j = Except.ok r)
    (hs : j.summary = none) :
    r.writeExecuted = true ∧
    ∀ p ∈ r.points, p.measurement ∉ (["gravity", "clients", "query_replies",
      "query_statuses", "query_types", "queries"] : List String) := by
  obtain ⟨s, tc, tp, tb, up, hi, bl, hs1, htc, htp, htb, hup, hhi, hbl, hr⟩ :=
    write_to_influxdb_inv j r hok
  rw [hs] at hs1
  have hsnil : s = [] := (Except.ok.inj hs1).symm
  subst hsnil
  subst hr
  refine ⟨rfl, ?_⟩
  intro p hp
  simp only [List.nil_append, List.mem_append] at hp
  rcases hp with ((((hp | hp) | hp) | hp) | hp) | hp
  · have := (topClientsPoints_props _ _ _ _ htc p hp).2.2.2.1
    rw [this]
    decide
  · have := (topPermittedPoints_props _ _ _ _ htp p hp).2.2.2.1
    rw [this]
    decide
  · have := (topBlockedPoints_props _ _ _ _ htb p hp).2.2.2.1
    rw [this]
    decide
  · have := (upstreamPoints_props _ _ _ _ hup p hp).2.2.2.1
    rw [this]
    decide
  · have := (historyPoints_props _ _ _ hhi p hp).2.2.1
    rw [this]
    decide
  · have := (blockingPoints_props _ _ _ _ hbl p hp).2.2.2.1
    rw [this]
    decide

/-- Witness for C4 at a concrete no-summary job. -/
theorem claim_C4_witness :
    ∃ r, run_job noSummaryJob = Except.ok r ∧ (r.writeExecuted = true ∧
      ∀ p ∈ r.points, p.measurement ∉ (["gravity", "clients", "query_replies",
        "query_statuses", "query_types", "queries"] : List String)) :=
  ⟨_, rfl, claim_C4 noSummaryJob _ rfl rfl⟩

/-- A job whose summary's `gravity` sub-dict is present but empty. -/
def emptyGravityJob : JobInput :=
  { pihole := samplePihole, nowSeconds := 0,
    summary := some
      { gravity := some [],
        clients := some [("active", PyVal.nat 2)],
        queries := some
          { replies := some [("NODATA", PyVal.nat 3)],
            status := some [("FORWARDED", PyVal.nat 4)],
            types := some [("A", PyVal.nat 5)],
            rest := [("total", PyVal.nat 6)] } },
    topClients := none, topPermittedDomains := none, topBlockedDomains := none,
    upstreams := none, history := none, blocking := none, writeFails := false }

/-- C8 counterexample: a snapshot with an empty `gravity` sub-dict yields
a produced point whose fields mapping is empty, so the invariant does not
hold for every snapshot. -/
theorem claim_C8_counterexample :
    ∃ r, run_job emptyGravityJob = Except.ok r ∧
      r.points.head?.map (fun p => p.fields) = some [] := by
  refine ⟨_, rfl, rfl⟩

/-- C8 (amended): every point produced by a successful cycle carries the
tags `alias` (the configured instance name) and `hostname` (parsed from
the instance address) and whole-second precision; its fields mapping is
non-empty provided every encoded sub-group of the summary and every
history bucket's remaining fields are non-empty. -/
theorem claim_C8 (j : JobInput) (r : WriteResult) (hok : run_job j = Except.ok r)
    (hsf : optOk summaryFieldsOk j.summary = true)
    (hhf : optOk historyFieldsOk j.history = true) :
    ∀ p ∈ r.points,
      p.tags = [("alias", j.pihole.aliasName), ("hostname", piholeHostname j.pihole)] ∧
      p.fields ≠ [] ∧ p.precision = "s" := by
  obtain ⟨s, tc, tp, tb, up, hi, bl, hs1, htc, htp, htb, hup, hhi, hbl, hr⟩ :=
    write_to_influxdb_inv j r hok
  subst hr
  intro p hp
  simp only [List.mem_append] at hp
  have htags : piholeTags j.pihole =
      [("alias", j.pihole.aliasName), ("hostname", piholeHostname j.pihole)] := rfl
  rcases hp with (((((hp | hp) | hp) | hp) | hp) | hp) | hp
  · obtain ⟨h1, h2, _, _, h5⟩ := summaryPoints_props _ _ _ _ hs1 p hp
    rw [htags] at h1
    exact ⟨h1, h5 hsf, h2⟩
  · obtain ⟨h1, h2, _, _, h5⟩ := topClientsPoints_props _ _ _ _ htc p hp
    rw [htags] at h1
    exact ⟨h1, h5, h2⟩
  · obtain ⟨h1, h2, _, _, h5⟩ := topPermittedPoints_props _ _ _ _ htp p hp
    rw [htags] at h1
    exact ⟨h1, h5, h2⟩
  · obtain ⟨h1, h2, _, _, h5⟩ := topBlockedPoints_props _ _ _ _ htb p hp
    rw [htags] at h1
    exact ⟨h1, h5, h2⟩
  · obtain ⟨h1, h2, _, _, h5⟩ := upstreamPoints_props _ _ _ _ hup p hp
    rw [htags] at h1
    exact ⟨h1, h5, h2⟩
  · obtain ⟨h1, h2, _, h4⟩ := historyPoints_props _ _ _ hhi p hp
    rw [htags] at h1
    exact ⟨h1, h4 hhf, h2⟩
  · obtain ⟨h1, h2, _, _, h5⟩ := blockingPoints_props _ _ _ _ hbl p hp
    rw [htags] at h1
    exact ⟨h1, h5, h2⟩

/-- Witness for C8 at the fully populated well-formed job. -/
theorem claim_C8_witness :
    ∃ r, run_job goodJob = Except.ok r ∧
      ∀ p ∈ r.points,
        p.tags = [("alias", goodJob.pihole.aliasName),
          ("hostname", piholeHostname goodJob.pihole)] ∧
        p.fields ≠ [] ∧ p.precision = "s" :=
  ⟨_, rfl, claim_C8 goodJob _ rfl (by decide) (by decide)⟩

/-- Unfolding `zip_longest` while aliases and addresses are both non-empty. -/
theorem zipLongest3_cons_cons (a b : String) (as bs cs : List String) :
    zipLongest3 (a :: as) (b :: bs) cs =
      (some a, some b, cs.head?) :: zipLongest3 as bs cs.tail := by
  cases cs <;> simp [zipLongest3]

/-- `zip_longest` on exhausted aliases and addresses maps the surplus
passwords to fully padded tuples. -/
theorem zipLongest3_surplus (cs : List String) :
    zipLongest3 ([] : List String) ([] : List String) cs =
      cs.map (fun c => ((none : Option String), (none : Option String), some c)) := by
  simp [zipLongest3, zip2Longest, List.map_map]

/-- Membership test on the modelled dict distributes over append. -/
theorem hasKey_append (l1 l2 : List (Option String × Pihole)) (k : Option String) :
    hasKey (l1 ++ l2) k = (hasKey l1 k || hasKey l2 k) := by
  simp [hasKey, List.any_append]


/-- Main phase of the `Config.__init__` loop: while aliases and addresses
(pairwise equal in number, addresses distinct and none already present)
remain, and every login call issued for a real address receives a
response, each step stores one new instance keyed by its address, keeping
the alias at the same position, and records no duplicate warning. -/
theorem configFold_main (timeout : Rat) (auth : String → Option SessionData)
    (hauth : ∀ a, (auth a).isSome = true) :
    ∀ (bs as cs : List String) (st : ConfigState),
      as.length = bs.length → bs.Nodup →
      (∀ b ∈ bs, hasKey st.piholes (some b) = false) →
      ∃ st2, (zipLongest3 as bs cs).foldlM (configStep timeout auth) st =
          (zipLongest3 [] [] (cs.drop bs.length)).foldlM (configStep timeout auth) st2 ∧
        st2.piholes.map Prod.fst = st.piholes.map Prod.fst ++ bs.map some ∧
        st2.piholes.map (fun kv => kv.2.aliasName) =
          st.piholes.map (fun kv => kv.2.aliasName) ++ as.map some ∧
        st2.dupWarnings = st.dupWarnings := by
  intro bs
  induction bs with
  | nil =>
    intro as cs st hlen _ _
    have has : as = [] := List.length_eq_zero.mp hlen
    subst has
    exact ⟨st, by simp, by simp, by simp, rfl⟩
  | cons b bs ih =>
    intro as cs st hlen hnd hkeys
    cases as with
    | nil => simp at hlen
    | cons a as =>
      rw [zipLongest3_cons_cons]
      have hkb := hkeys b (List.mem_cons_self b bs)
      obtain ⟨ph2, hpa, hstep⟩ : ∃ ph2 : Pihole, ph2.aliasName = some a ∧
          configStep timeout auth st (some a, some b, cs.head?) =
            Except.ok { piholes := st.piholes ++ [(some b, ph2)],
                        dupWarnings := st.dupWarnings,
                        pwWarnings := if truthy cs.head? then st.pwWarnings
                          else st.pwWarnings + 1 } := by
        cases htr : truthy cs.head? with
        | false =>
          refine ⟨{ aliasName := some a, address := some b, requestTimeout := timeout, password := cs.head?, sid := none }, rfl, ?_⟩
          simp [configStep, hkb, htr]
        | true =>
          obtain ⟨s, hs⟩ := Option.isSome_iff_exists.mp (hauth b)
          cases hv : s.valid with
          | false =>
            refine ⟨{ aliasName := some a, address := some b, requestTimeout := timeout, password := cs.head?, sid := none }, rfl, ?_⟩
            simp [configStep, hkb, htr, authCallResult, hs, authenticate, hv]
          | true =>
            refine ⟨{ aliasName := some a, address := some b, requestTimeout := timeout, password := some "", sid := some s.sid }, rfl, ?_⟩
            simp [configStep, hkb, htr, authCallResult, hs, authenticate, hv]
      have hnd2 : bs.Nodup := (List.nodup_cons.mp hnd).2
      have hbnotin : b ∉ bs := (List.nodup_cons.mp hnd).1
      have hkeys2 : ∀ b2 ∈ bs, hasKey (st.piholes ++ [(some b, ph2)]) (some b2) = false := by
        intro b2 hb2
        rw [hasKey_append, hkeys b2 (List.mem_cons_of_mem b hb2)]
        have hne : b ≠ b2 := fun he => hbnotin (he ▸ hb2)
        simp [hasKey, hne]
      have hlen2 : as.length = bs.length := by simpa using hlen
      obtain ⟨st2, heq, hk, ha, hd⟩ := ih as cs.tail
        { piholes := st.piholes ++ [(some b, ph2)],
          dupWarnings := st.dupWarnings,
          pwWarnings := if truthy cs.head? then st.pwWarnings else st.pwWarnings + 1 }
        hlen2 hnd2 hkeys2
      refine ⟨st2, ?_, ?_, ?_, ?_⟩
      · rw [List.foldlM_cons, hstep, exbind_ok, heq]
        have hdrop : cs.tail.drop bs.length = cs.drop (b :: bs).length := by
          cases cs <;> simp
        rw [hdrop]
      · rw [hk]
        simp
      · rw [ha]
        simp [hpa]
      · rw [hd]

/-- C6 counterexample: one alias, one address, no duplicates, one
password — but the `authenticate()` call on line 204 raises
`AttributeError` when its login request errors (`_api_call` returns
`None`), so `Config.__init__` aborts and no instance dict is ever
produced, contradicting "exactly N instances are constructed". -/
theorem claim_C6_counterexample :
    configInit ["x"] ["A"] ["p"] 30 (fun _ => none) =
      Except.error (PyErr.attributeError "NoneType object has no attribute json") := by
  rfl

/-- C6 (amended): for every configuration with matching alias/address
counts, at most as many passwords as addresses, no duplicate addresses,
and whose login calls each receive a response, the constructor completes
and exactly one instance per address is stored, in order, keeping the
positional alias, with no duplicate warning; with a duplicate address
(the `[A, A, B]` example, no passwords, hence no login calls) only the
first occurrence produces an instance, keeping the first alias, and one
warning is recorded for the dropped duplicate. -/
theorem claim_C6 :
    (∀ (aliases addresses passwords : List String) (timeout : Rat)
        (auth : String → Option SessionData),
      aliases.length = addresses.length → passwords.length ≤ addresses.length →
      addresses.Nodup → (∀ a, (auth a).isSome = true) →
      ∃ st, configInit aliases addresses passwords timeout auth = Except.ok st ∧
        st.piholes.map Prod.fst = addresses.map some ∧
        st.piholes.map (fun kv => kv.2.aliasName) = aliases.map some ∧
        st.dupWarnings = 0) ∧
    (∃ st, configInit ["x", "y", "z"] ["A", "A", "B"] [] 30 (fun _ => none) =
        Except.ok st ∧
      st.piholes.map (fun kv => (kv.1, kv.2.aliasName)) =
        [(some "A", some "x"), (some "B", some "z")] ∧
      st.dupWarnings = 1) := by
  constructor
  · intro aliases addresses passwords timeout auth h1 h2 h3 hauth
    obtain ⟨st2, heq, hk, ha, hd⟩ := configFold_main timeout auth hauth addresses aliases
      passwords { piholes := [], dupWarnings := 0, pwWarnings := 0 } h1 h3 (fun b _ => rfl)
    have hdrop : passwords.drop addresses.length = [] := List.drop_eq_nil_of_le h2
    rw [configInit, heq, hdrop]
    have hz : zipLongest3 ([] : List String) ([] : List String) ([] : List String) = [] := rfl
    rw [hz, List.foldlM_nil]
    simp only [List.map_nil, List.nil_append] at hk ha
    exact ⟨st2, rfl, hk, ha, hd⟩
  · refine ⟨_, rfl, ?_, ?_⟩
    · decide
    · decide

/-- Witness for C6 at concrete inputs (login calls answered). -/
theorem claim_C6_witness :
    ∃ st, configInit ["x", "y"] ["A", "B"] ["p"] 30
        (fun _ => some { valid := true, sid := "s" }) = Except.ok st ∧
      st.piholes.map Prod.fst = [some "A", some "B"] ∧
      st.piholes.map (fun kv => kv.2.aliasName) = [some "x", some "y"] ∧
      st.dupWarnings = 0 :=
  claim_C6.1 ["x", "y"] ["A", "B"] ["p"] 30 (fun _ => some { valid := true, sid := "s" })
    rfl (by decide) (by decide) (fun _ => rfl)

/-- C10 counterexample: with surplus passwords the padded instance's
`authenticate()` call (line 204) deterministically raises
`AttributeError` — the `None` address yields the schemeless URL
`None/api/auth`, `requests` raises `MissingSchema`, `_api_call` returns
`None`, and `None.json()` raises — before the store at line 205, so
nothing is ever stored under the key `None`, even when every real
address's login call is answered. -/
theorem claim_C10_counterexample :
    configInit ["x"] ["A"] ["p", "q", "r"] 30
        (fun _ => some { valid := true, sid := "s" }) =
      Except.error (PyErr.attributeError "NoneType object has no attribute json") := by
  rfl

/-- C10 (amended): if the configuration supplies more (non-empty)
passwords than addresses, `zip_longest` padding produces a tuple with
`None` alias and `None` address, and `Config.__init__` calls
`authenticate()` on the padded instance; that call deterministically
raises `AttributeError` (the login request to the schemeless
`None/api/auth` errors, `_api_call` returns `None`, and `None.json()`
raises), aborting the constructor before the instance is stored — no
`None`-keyed instance ever exists and later surplus passwords are never
processed. -/
theorem claim_C10 (aliases addresses passwords : List String) (timeout : Rat)
    (auth : String → Option SessionData)
    (h1 : aliases.length = addresses.length)
    (h2 : addresses.length < passwords.length)
    (h3 : addresses.Nodup)
    (hauth : ∀ a, (auth a).isSome = true)
    (h4 : ∀ p ∈ passwords, p ≠ "") :
    configInit aliases addresses passwords timeout auth =
      Except.error (PyErr.attributeError "NoneType object has no attribute json") := by
  obtain ⟨st2, heq, hk, ha, hd⟩ := configFold_main timeout auth hauth addresses aliases
    passwords { piholes := [], dupWarnings := 0, pwWarnings := 0 } h1 h3 (fun b _ => rfl)
  simp only [List.map_nil, List.nil_append] at hk
  cases hdrop : passwords.drop addresses.length with
  | nil =>
    exfalso
    have hld := List.length_drop addresses.length passwords
    rw [hdrop] at hld
    simp at hld
    omega
  | cons c cs =>
    have hkey : hasKey st2.piholes none = false := by
      rw [hasKey]
      simp only [List.any_eq_false]
      intro kv hkv
      have hmem : kv.1 ∈ st2.piholes.map Prod.fst := List.mem_map_of_mem Prod.fst hkv
      rw [hk] at hmem
      obtain ⟨b, _, hb⟩ := List.mem_map.mp hmem
      rw [← hb]
      simp
    have hcmem : c ∈ passwords := by
      have hcd : c ∈ passwords.drop addresses.length := by
        rw [hdrop]
        exact List.mem_cons_self c cs
      exact List.drop_subset addresses.length passwords hcd
    have hct : truthy (some c) = true := by
      rw [truthy]
      cases hie : c.isEmpty
      · rfl
      · exact absurd ((String.isEmpty_iff c).mp hie) (h4 c hcmem)
    rw [configInit, heq, hdrop, zipLongest3_surplus, List.map_cons, List.foldlM_cons]
    have hstep : configStep timeout auth st2 (none, none, some c) =
        Except.error (PyErr.attributeError "NoneType object has no attribute json") := by
      simp [configStep, hkey, hct, authCallResult, authenticate]
    rw [hstep, exbind_err]

/-- Witness for C10 at concrete inputs. -/
theorem claim_C10_witness :
    configInit ["x"] ["A"] ["p", "q"] 30 (fun _ => some { valid := false, sid := "t" }) =
      Except.error (PyErr.attributeError "NoneType object has no attribute json") :=
  claim_C10 ["x"] ["A"] ["p", "q"] 30 (fun _ => some { valid := false, sid := "t" })
    rfl (by decide) (by decide) (fun _ => rfl) (by decide)
